import Mathlib

/-!
Verification of the Chatterbox conversation stack (entity, agentic loop,
tool registry dispatcher, tool-result cache) against its specification.

The Python sources are shallowly embedded as Lean functions:

* `src/chatterbox/conversation/tools/cache.py` → `ToolResultCache` model
  (`makeKey`, `cacheGet`, `cachePut`); the monotonic clock is a `ℚ`
  parameter passed explicitly to each operation.
* `src/chatterbox/conversation/tools/registry.py` →
  `ToolRegistry.build_dispatcher` model (`attemptLoop`, `buildDispatch`);
  the handler's behaviour on its successive attempts is a function
  `Nat → HOut` (attempt index ↦ outcome), and `asyncio.wait_for` timeouts
  surface as a `TimeoutError`-kinded exception outcome.
* `src/chatterbox/conversation/loop.py` → `AgenticLoop` model (`runAux`,
  `AgenticLoop.run`, `dispatchToolCalls`); the provider is a function from
  the current message list (and tools) to a `CompletionResultE`.
* `src/chatterbox/conversation/entity.py` → `ChatterboxConversationEntity`
  model (`truncateHistory`, `asyncProcess`); the agentic loop's outcome for
  the turn is an `Except LoopErr String` parameter, and `uuid.uuid4()` is a
  `freshId : String` parameter.

Python's `json.dumps(..., sort_keys=True)` (used for cache keys and tool
error payloads) is modelled by `JVal.dumps`: recursively sort every object's
fields by key, then print with `", "` / `": "` separators and
`ensure_ascii`-style string escaping.
-/

namespace Chatterbox

/-! ## JSON values and `json.dumps(·, sort_keys=True)` -/

/-- JSON values, as produced by parsing tool arguments.  Numbers are
modelled as integers (the claims never depend on float formatting). -/
inductive JVal where
  | jnull : JVal
  | jbool : Bool → JVal
  | jnum : Int → JVal
  | jstr : String → JVal
  | jarr : List JVal → JVal
  | jobj : List (String × JVal) → JVal

/-- Lowercase hexadecimal digit. -/
def hexDigit (n : Nat) : Char :=
  if n < 10 then Char.ofNat (48 + n) else Char.ofNat (87 + n)

/-- `\uXXXX` escape used by `json.dumps` with `ensure_ascii=True`. -/
def uEscape (n : Nat) : String :=
  "\\u" ++ String.mk [hexDigit (n / 4096 % 16), hexDigit (n / 256 % 16),
    hexDigit (n / 16 % 16), hexDigit (n % 16)]

/-- Escape one character the way CPython's JSON encoder does with
`ensure_ascii=True`: the two-character escapes for `"\\"`, quote and the
common control characters, `\uXXXX` for other controls, `0x7f` and
non-ASCII (with surrogate pairs above `0xFFFF`). -/
def jsonEscapeChar (c : Char) : String :=
  if c = Char.ofNat 34 then "\\\""
  else if c = Char.ofNat 92 then "\\\\"
  else if c = Char.ofNat 10 then "\\n"
  else if c = Char.ofNat 13 then "\\r"
  else if c = Char.ofNat 9 then "\\t"
  else if c = Char.ofNat 8 then "\\b"
  else if c = Char.ofNat 12 then "\\f"
  else if c.toNat < 32 then uEscape c.toNat
  else if c.toNat < 127 then String.singleton c
  else if c.toNat < 65536 then uEscape c.toNat
  else uEscape (55296 + (c.toNat - 65536) / 1024) ++
    uEscape (56320 + (c.toNat - 65536) % 1024)

/-- JSON encoding of a string literal. -/
def dumpsString (s : String) : String :=
  "\"" ++ String.join (s.toList.map jsonEscapeChar) ++ "\""

/-- Key order on object fields, as `sort_keys=True` compares keys. -/
def keyLE (a b : String × JVal) : Prop := a.1 ≤ b.1

instance : DecidableRel keyLE := fun a b => by
  unfold keyLE; infer_instance

instance : IsTotal (String × JVal) keyLE := ⟨fun a b => le_total a.1 b.1⟩

instance : IsTrans (String × JVal) keyLE := ⟨fun _ _ _ h h' => le_trans h h'⟩

/-- Strict key order on object fields (used to identify sorted field lists
whose keys are distinct). -/
def keyLT (a b : String × JVal) : Prop := a.1 < b.1

instance : IsAntisymm (String × JVal) keyLT :=
  ⟨fun _ _ h h' => absurd h (lt_asymm h')⟩

mutual

/-- Recursively sort every object's fields by key (the effect of
`sort_keys=True` at all nesting levels). -/
def sortAll : JVal → JVal
  | .jnull => .jnull
  | .jbool b => .jbool b
  | .jnum n => .jnum n
  | .jstr s => .jstr s
  | .jarr xs => .jarr (sortAllList xs)
  | .jobj fs => .jobj (List.insertionSort keyLE (sortAllFields fs))

/-- `sortAll` mapped over array elements. -/
def sortAllList : List JVal → List JVal
  | [] => []
  | x :: xs => sortAll x :: sortAllList xs

/-- `sortAll` mapped over object field values. -/
def sortAllFields : List (String × JVal) → List (String × JVal)
  | [] => []
  | (k, v) :: fs => (k, sortAll v) :: sortAllFields fs

end

def lbrace : String := "\x7b"

def rbrace : String := "\x7d"

mutual

/-- Print a JSON value with `json.dumps` default separators
(`", "` between items, `": "` after keys), without sorting. -/
def dumpsRaw : JVal → String
  | .jnull => "null"
  | .jbool b => if b then "true" else "false"
  | .jnum n => toString n
  | .jstr s => dumpsString s
  | .jarr xs => "[" ++ dumpsList xs ++ "]"
  | .jobj fs => lbrace ++ dumpsFields fs ++ rbrace

/-- Comma-separated array elements. -/
def dumpsList : List JVal → String
  | [] => ""
  | [x] => dumpsRaw x
  | x :: y :: xs => dumpsRaw x ++ ", " ++ dumpsList (y :: xs)

/-- Comma-separated `"key": value` pairs. -/
def dumpsFields : List (String × JVal) → String
  | [] => ""
  | [(k, v)] => dumpsString k ++ ": " ++ dumpsRaw v
  | (k, v) :: p :: fs => dumpsString k ++ ": " ++ dumpsRaw v ++ ", " ++ dumpsFields (p :: fs)

end

/-- `json.dumps(v, sort_keys=True)`. -/
def JVal.dumps (v : JVal) : String := dumpsRaw (sortAll v)

/-! ## ToolResultCache (`cache.py`) -/

/-- `ToolResultCache._make_key`:
`name + ":" + json.dumps(args, sort_keys=True, default=str)`. -/
def makeKey (name : String) (args : List (String × JVal)) : String :=
  name ++ ":" ++ (JVal.jobj args).dumps

/-- The `_store` dict: cache key ↦ (result, expiry instant).  The monotonic
clock is modelled by `ℚ`. -/
def CacheStore := List (String × String × ℚ)

/-- `dict.get`: value of the first (only) entry with the given key. -/
def storeLookup (s : List (String × String × ℚ)) (k : String) : Option (String × ℚ) :=
  match s with
  | [] => none
  | (k', v) :: rest => if k' = k then some v else storeLookup rest k

/-- `dict[k] = v`: replace the existing entry for `k`, else append. -/
def storeInsert (s : List (String × String × ℚ)) (k : String) (v : String × ℚ) :
    List (String × String × ℚ) :=
  match s with
  | [] => [(k, v)]
  | (k', v') :: rest => if k' = k then (k, v) :: rest else (k', v') :: storeInsert rest k v

/-- `del dict[k]`: remove the (first) entry for `k`. -/
def storeErase (s : List (String × String × ℚ)) (k : String) :
    List (String × String × ℚ) :=
  match s with
  | [] => []
  | (k', v') :: rest => if k' = k then rest else (k', v') :: storeErase rest k

/-- A `ToolResultCache` instance: its `_ttl` and `_store`. -/
structure ToolResultCache where
  ttl : ℚ
  store : List (String × String × ℚ)

/-- `ToolResultCache.get`, with the current monotonic time passed
explicitly.  Returns the result (or `None`) together with the state of the
cache after the call (expired entries are evicted on access). -/
def cacheGet (c : ToolResultCache) (now : ℚ) (name : String)
    (args : List (String × JVal)) : Option String × ToolResultCache :=
  if c.ttl ≤ 0 then (none, c)
  else
    let key := makeKey name args
    match storeLookup c.store key with
    | none => (none, c)
    | some (result, expiresAt) =>
      if now > expiresAt then (none, ⟨c.ttl, storeErase c.store key⟩)
      else (some result, c)

/-- `ToolResultCache.put`, with the current monotonic time passed
explicitly.  Stores `(result, now + ttl)` under the canonical key. -/
def cachePut (c : ToolResultCache) (now : ℚ) (name : String)
    (args : List (String × JVal)) (result : String) : ToolResultCache :=
  if c.ttl ≤ 0 then c
  else ⟨c.ttl, storeInsert c.store (makeKey name args) (result, now + c.ttl)⟩

/-- `ToolResultCache.__len__`: entry count, expired entries included. -/
def cacheLen (c : ToolResultCache) : Nat := c.store.length

/-! ## AgenticLoop (`loop.py`) -/

/-- An OpenAI-format message dict as the loop manipulates it: `role`,
optional `content`, optional `tool_call_id`.  Assistant messages carrying
tool calls are appended via `raw_message`, which is also a value of this
type. -/
structure MsgE where
  role : String
  content : Option String
  toolCallId : Option String
  deriving DecidableEq, Repr

/-- `ToolDefinition` (providers.py): only the name and description matter
to the loop, which passes the list through to the provider. -/
structure ToolDefE where
  name : String
  description : String
  deriving DecidableEq, Repr

/-- `ToolCall` (providers.py): a tool invocation requested by the LLM. -/
structure ToolCallE where
  id : String
  name : String
  arguments : List (String × JVal)

/-- `CompletionResult` (providers.py), as consumed by the loop. -/
structure CompletionResultE where
  finishReason : String
  content : Option String
  toolCalls : List ToolCallE
  rawMessage : MsgE

/-- An LLM provider: `complete(messages, tools)`.  The claims quantify over
providers, so a provider is any function of the current message list and
tool list. -/
def ProviderE := List MsgE → List ToolDefE → CompletionResultE

/-- A tool dispatcher `(name, args) → str`, which may raise:
`Except.error m` models an exception whose `str(exc)` is `m`. -/
def DispatcherE := String → List (String × JVal) → Except String String

/-- `json.dumps({"error": str(exc)})` from `_run_one` in
`AgenticLoop._dispatch_tool_calls`. -/
def jsonErrorString (msg : String) : String :=
  (JVal.jobj [("error", JVal.jstr msg)]).dumps

/-- The `_run_one` body: call the dispatcher, turn an exception into the
JSON error payload, and wrap the result as a tool message echoing the
call's id. -/
def runOne (d : DispatcherE) (tc : ToolCallE) : MsgE :=
  match d tc.name tc.arguments with
  | .ok s => ⟨"tool", some s, some tc.id⟩
  | .error m => ⟨"tool", some (jsonErrorString m), some tc.id⟩

/-- `AgenticLoop._dispatch_tool_calls`: one tool-result message per call,
in call order (`asyncio.gather` preserves order). -/
def dispatchToolCalls (d : DispatcherE) (tcs : List ToolCallE) : List MsgE :=
  tcs.map (runOne d)

/-- The mutable lists in scope during `AgenticLoop.run`: the caller's
`chat_history` object and the loop's own `messages` list.  Every mutation
in the source targets `messages`; modelling both lets the frame property
(the caller's list is untouched) be stated. -/
structure LoopMem where
  chatHistory : List MsgE
  messages : List MsgE
  deriving DecidableEq, Repr

/-- Outcome of `AgenticLoop.run`: a final text, or the iteration-limit
`RuntimeError`. -/
inductive RunOutcome where
  | success : String → RunOutcome
  | limitErr : RunOutcome
  deriving DecidableEq, Repr

/-- The `for iteration in range(self.max_iterations)` loop of
`AgenticLoop.run`, with fuel = remaining iterations.  Returns the outcome,
the final memory state, the number of provider calls made, and the number
of tool calls dispatched. -/
def runAux (provider : ProviderE) (d : DispatcherE) (tools : List ToolDefE) :
    Nat → LoopMem → Nat → Nat → RunOutcome × LoopMem × Nat × Nat
  | 0, st, calls, disp => (.limitErr, st, calls, disp)
  | fuel + 1, st, calls, disp =>
    let r := provider st.messages tools
    if r.finishReason = "stop" then
      (.success (r.content.getD ""), st, calls + 1, disp)
    else if r.finishReason = "tool_calls" ∧ r.toolCalls.isEmpty = false then
      runAux provider d tools fuel
        { st with messages := st.messages ++ r.rawMessage :: dispatchToolCalls d r.toolCalls }
        (calls + 1) (disp + r.toolCalls.length)
    else
      (.success (r.content.getD ""), st, calls + 1, disp)

/-- The initial `messages` list of a turn: optional system prompt (skipped
when `None` or empty — Python truthiness), the caller's history, then the
new user message. -/
def initialMessages (systemPrompt : Option String) (chatHistory : List MsgE)
    (userText : String) : List MsgE :=
  (match systemPrompt with
   | some s => if s = "" then [] else [⟨"system", some s, none⟩]
   | none => []) ++ chatHistory ++ [⟨"user", some userText, none⟩]

/-- `AgenticLoop.run` for one turn (`tools = tools or []` is the caller's
list; `None` is modelled by `[]`). -/
def AgenticLoop.run (provider : ProviderE) (d : DispatcherE)
    (maxIterations : Nat) (systemPrompt : Option String) (userText : String)
    (chatHistory : List MsgE) (tools : List ToolDefE) :
    RunOutcome × LoopMem × Nat × Nat :=
  runAux provider d tools maxIterations
    ⟨chatHistory, initialMessages systemPrompt chatHistory userText⟩ 0 0

/-! ## ToolRegistry.build_dispatcher (`registry.py`) -/

/-- A raised exception, abstracted to its class (`kind`) and `str(exc)`
(`msg`).  `isinstance(exc, retry_exceptions)` is modelled as membership of
`kind` in the configured kind list. -/
structure ExcE where
  kind : String
  msg : String
  deriving DecidableEq, Repr

/-- Outcome of one attempt of a registered handler on the given arguments
(`asyncio.wait_for` timeouts surface as a `TimeoutError`-kinded
exception). -/
inductive HOut where
  | ok : String → HOut
  | exc : ExcE → HOut

/-- `retry_exceptions and isinstance(exc, retry_exceptions)`: with an empty
tuple this is falsy, which coincides with empty-list membership. -/
def retryable (retryKinds : List String) (e : ExcE) : Bool :=
  e.kind ∈ retryKinds

/-- Python repr of one character inside a string literal quoted by `q`. -/
def pyReprChar (q : Char) (c : Char) : String :=
  if c = Char.ofNat 92 then "\\\\"
  else if c = q then "\\" ++ String.singleton q
  else if c = Char.ofNat 10 then "\\n"
  else if c = Char.ofNat 13 then "\\r"
  else if c = Char.ofNat 9 then "\\t"
  else if c.toNat < 32 ∨ c.toNat = 127 then
    "\\x" ++ String.mk [hexDigit (c.toNat / 16), hexDigit (c.toNat % 16)]
  else String.singleton c

/-- Python `repr` of a string (`f"{name!r}"`): single quotes, switching to
double quotes when the string contains a single quote but no double
quote; printable characters are kept as-is. -/
def pyRepr (s : String) : String :=
  let q := if s.contains (Char.ofNat 39) ∧ ¬ s.contains (Char.ofNat 34)
    then Char.ofNat 34 else Char.ofNat 39
  String.singleton q ++ String.join (s.toList.map (pyReprChar q)) ++ String.singleton q

/-- The `json.dumps({"error": f"Unknown tool: {name!r}"})` payload. -/
def unknownToolPayload (name : String) : String :=
  (JVal.jobj [("error", JVal.jstr ("Unknown tool: " ++ pyRepr name))]).dumps

/-- The `for attempt in range(1, total_attempts + 1)` loop of the built
dispatcher.  `runs i` is the outcome of the handler's `i`-th attempt
(0-based), `idx` the number of attempts already made, and the second
recursion argument the number of attempts still allowed.  Returns the
result (`Except.error e` models `raise e`) and the total number of
attempts made.  The fuel-0 case is the function's trailing unreachable
`RuntimeError`. -/
def attemptLoop (runs : Nat → HOut) (retryKinds : List String) :
    Nat → Nat → Except ExcE String × Nat
  | idx, 0 =>
    (.error ⟨"RuntimeError", "build_dispatcher: retry loop exited unexpectedly"⟩, idx)
  | idx, rem + 1 =>
    match runs idx with
    | .ok s => (.ok s, idx + 1)
    | .exc e =>
      if retryable retryKinds e ∧ 1 ≤ rem then
        attemptLoop runs retryKinds (idx + 1) rem
      else (.error e, idx + 1)

/-- The registry snapshot captured by `build_dispatcher`: tool name ↦ the
handler's per-attempt outcomes on the arguments at hand. -/
def snapshotLookup (snapshot : List (String × (Nat → HOut))) (k : String) :
    Option (Nat → HOut) :=
  match snapshot with
  | [] => none
  | (k', v) :: rest => if k' = k then some v else snapshotLookup rest k

/-- The `_dispatch` closure returned by `ToolRegistry.build_dispatcher`:
unknown names return a JSON error payload (attempt count 0); registered
tools run the retry loop with `total_attempts = max_retries + 1`. -/
def buildDispatch (snapshot : List (String × (Nat → HOut)))
    (maxRetries : Nat) (retryKinds : List String) (name : String) :
    Except ExcE String × Nat :=
  match snapshotLookup snapshot name with
  | none => (.ok (unknownToolPayload name), 0)
  | some runs => attemptLoop runs retryKinds 0 (maxRetries + 1)

/-! ## ChatterboxConversationEntity (`entity.py`) -/

/-- An entity-level history message dict `{"role": ..., "content": ...}`. -/
structure EMsg where
  role : String
  content : String
  deriving DecidableEq, Repr

/-- `ConversationInput`. -/
structure ConversationInput where
  text : String
  conversationId : Option String
  language : String
  deriving DecidableEq, Repr

/-- `ConversationResult` (the `extra` dict is always left at its default
and is omitted). -/
structure ConversationResult where
  responseText : String
  conversationId : Option String
  deriving DecidableEq, Repr

/-- Entity configuration relevant to a turn. -/
structure EntityCfg where
  maxHistoryTurns : Nat
  autoCreate : Bool
  deriving DecidableEq, Repr

/-- The `_histories` dict: `conversation_id → message list`. -/
def Histories := List (String × List EMsg)

/-- `dict.get` on `_histories`. -/
def histLookup (hs : List (String × List EMsg)) (c : String) : Option (List EMsg) :=
  match hs with
  | [] => none
  | (c', l) :: rest => if c' = c then some l else histLookup rest c

/-- `self._histories[conv_id] = updated_history`. -/
def histUpdate (hs : List (String × List EMsg)) (c : String) (l : List EMsg) :
    List (String × List EMsg) :=
  match hs with
  | [] => [(c, l)]
  | (c', l') :: rest => if c' = c then (c, l) :: rest else (c', l') :: histUpdate rest c l

/-- `ChatterboxConversationEntity._truncate_history`: keep only the last
`max_history_turns * 2` messages; `max_history_turns == 0` (or empty
history) disables truncation. -/
def truncateHistory (cfg : EntityCfg) (history : List EMsg) : List EMsg :=
  if cfg.maxHistoryTurns = 0 ∨ history.length = 0 then history
  else
    let keep := cfg.maxHistoryTurns * 2
    if history.length > keep then history.drop (history.length - keep) else history

/-- The exception raised out of `self._loop.run`, by the category the
entity's `except` clauses distinguish. -/
inductive LoopErr where
  | iterLimit : LoopErr
  | rateLimit : LoopErr
  | connection : LoopErr
  | api : Option Int → LoopErr
  | other : LoopErr
  deriving DecidableEq, Repr

/-- The fixed apology string per error category. -/
def apology : LoopErr → String
  | .iterLimit => "I'm sorry, I got stuck trying to answer that. Please try again."
  | .rateLimit =>
    "I'm sorry, I'm receiving too many requests right now. Please try again in a moment."
  | .connection =>
    "I'm sorry, I can't reach my language model right now. Please check the connection and try again."
  | .api _ => "I'm sorry, my language model returned an error. Please try again."
  | .other => "I'm sorry, I encountered an error. Please try again."

/-- `conv_id` after the auto-create step. -/
def resolveConvId (cfg : EntityCfg) (input : ConversationInput) (freshId : String) :
    Option String :=
  match input.conversationId with
  | none => if cfg.autoCreate then some freshId else none
  | some s => some s

/-- `history = self._histories.get(conv_id, []) if conv_id else []` —
note Python truthiness: the empty string reads an empty history. -/
def loadHistory (hs : List (String × List EMsg)) (convId : Option String) : List EMsg :=
  match convId with
  | some c => if c = "" then [] else (histLookup hs c).getD []
  | none => []

/-- The observable effect of one `async_process` call. -/
structure ProcessResult where
  result : ConversationResult
  histories : List (String × List EMsg)
  loopHistory : List EMsg

/-- `ChatterboxConversationEntity.async_process`.  `freshId` stands for
`str(uuid.uuid4())`; `outcome` is what `self._loop.run` returned (`ok`) or
raised (`error`).  `loopHistory` records the `chat_history` passed to the
loop. -/
def asyncProcess (cfg : EntityCfg) (hs : List (String × List EMsg))
    (input : ConversationInput) (freshId : String)
    (outcome : Except LoopErr String) : ProcessResult :=
  let convId := resolveConvId cfg input freshId
  let history := truncateHistory cfg (loadHistory hs convId)
  match outcome with
  | .error e => ⟨⟨apology e, convId⟩, hs, history⟩
  | .ok responseText =>
    let hs' := match convId with
      | some c =>
        histUpdate hs c
          (history ++ [⟨"user", input.text⟩, ⟨"assistant", responseText⟩])
      | none => hs
    ⟨⟨responseText, convId⟩, hs', history⟩

/-- All stored session histories have even length (whole user+assistant
pairs). -/
def evenHists (hs : List (String × List EMsg)) : Prop :=
  ∀ p ∈ hs, p.2.length % 2 = 0

instance (hs : List (String × List EMsg)) : Decidable (evenHists hs) := by
  unfold evenHists; infer_instance

/-! ## Helper lemmas -/

theorem sortAllFields_eq_map (l : List (String × JVal)) :
    sortAllFields l = l.map fun p => (p.1, sortAll p.2) := by
  induction l with
  | nil => rfl
  | cons p rest ih => cases p; simp [sortAllFields, ih]

theorem sortedKeyedEq (l₁ l₂ : List (String × JVal)) (hp : l₁.Perm l₂)
    (hnd : (l₁.map Prod.fst).Nodup) :
    List.insertionSort keyLE l₁ = List.insertionSort keyLE l₂ := by
  have hp1 : (List.insertionSort keyLE l₁).Perm l₁ := List.perm_insertionSort keyLE l₁
  have hp2 : (List.insertionSort keyLE l₂).Perm l₂ := List.perm_insertionSort keyLE l₂
  have hps : (List.insertionSort keyLE l₁).Perm (List.insertionSort keyLE l₂) :=
    hp1.trans (hp.trans hp2.symm)
  have hnd1 : ((List.insertionSort keyLE l₁).map Prod.fst).Nodup :=
    ((hp1.map Prod.fst).nodup_iff).mpr hnd
  have hnd2 : ((List.insertionSort keyLE l₂).map Prod.fst).Nodup :=
    ((hps.map Prod.fst).nodup_iff).mp hnd1
  have hstrict : ∀ (l : List (String × JVal)), (l.map Prod.fst).Nodup →
      l.Sorted keyLE → l.Sorted keyLT := by
    intro l hnodup hsorted
    have hne : l.Pairwise fun a b => a.1 ≠ b.1 := List.pairwise_map.mp hnodup
    exact (hsorted.and hne).imp fun h => lt_of_le_of_ne h.1 h.2
  exact List.eq_of_perm_of_sorted hps
    (hstrict _ hnd1 (List.sorted_insertionSort keyLE l₁))
    (hstrict _ hnd2 (List.sorted_insertionSort keyLE l₂))

theorem makeKey_perm (name : String) (args₁ args₂ : List (String × JVal))
    (hp : args₁.Perm args₂) (hnd : (args₁.map Prod.fst).Nodup) :
    makeKey name args₁ = makeKey name args₂ := by
  have hmap : ∀ l : List (String × JVal),
      (l.map fun p : String × JVal => (p.1, sortAll p.2)).map Prod.fst = l.map Prod.fst := by
    intro l; rw [List.map_map]; rfl
  have hp' : (sortAllFields args₁).Perm (sortAllFields args₂) := by
    rw [sortAllFields_eq_map, sortAllFields_eq_map]
    exact hp.map _
  have hnd' : ((sortAllFields args₁).map Prod.fst).Nodup := by
    rw [sortAllFields_eq_map, hmap]; exact hnd
  unfold makeKey JVal.dumps
  rw [show sortAll (.jobj args₁) = .jobj (List.insertionSort keyLE (sortAllFields args₁)) from rfl,
    show sortAll (.jobj args₂) = .jobj (List.insertionSort keyLE (sortAllFields args₂)) from rfl,
    sortedKeyedEq _ _ hp' hnd']

theorem storeLookup_insert_self (s : List (String × String × ℚ)) (k : String)
    (v : String × ℚ) : storeLookup (storeInsert s k v) k = some v := by
  induction s with
  | nil => simp [storeInsert, storeLookup]
  | cons p rest ih =>
    obtain ⟨k', v'⟩ := p
    by_cases h : k' = k
    · simp [storeInsert, storeLookup, h]
    · simp [storeInsert, storeLookup, h, ih]

theorem storeErase_length (s : List (String × String × ℚ)) (k : String)
    (v : String × ℚ) (h : storeLookup s k = some v) :
    (storeErase s k).length + 1 = s.length := by
  induction s with
  | nil => simp [storeLookup] at h
  | cons p rest ih =>
    obtain ⟨k', v'⟩ := p
    by_cases hk : k' = k
    · simp [storeErase, hk]
    · simp only [storeLookup, hk, if_neg, ite_false] at h
      simp [storeErase, hk, ih h]

/-! ## Claims C7 and C8 -/

/-- C7: with a positive TTL, a `put` under one argument ordering is hit by
an unexpired `get` under any reordering of the same key-value argument map:
the cache key is the tool name plus the canonical sorted-keys JSON encoding
of the arguments. -/
theorem cache_key_order_independent (c : ToolResultCache) (name : String)
    (args₁ args₂ : List (String × JVal)) (r : String) (tput tget : ℚ)
    (httl : 0 < c.ttl) (hp : args₁.Perm args₂)
    (hnd : (args₁.map Prod.fst).Nodup) (hfresh : ¬ tget > tput + c.ttl) :
    (cacheGet (cachePut c tput name args₁ r) tget name args₂).1 = some r := by
  have hkey : makeKey name args₂ = makeKey name args₁ :=
    (makeKey_perm name args₁ args₂ hp hnd).symm
  have hnle : ¬ c.ttl ≤ 0 := not_le.mpr httl
  have hput : cachePut c tput name args₁ r =
      ⟨c.ttl, storeInsert c.store (makeKey name args₁) (r, tput + c.ttl)⟩ := by
    unfold cachePut; rw [if_neg hnle]
  rw [hput]
  unfold cacheGet
  rw [if_neg hnle]
  simp only [hkey, storeLookup_insert_self]
  rw [if_neg hfresh]

/-- C7 witness: `put("w", [a:1, b:2], "res")` at time 0 is returned by
`get("w", [b:2, a:1])` at time 100 with `ttl = 300`. -/
theorem cache_key_order_independent_witness :
    (cacheGet
      (cachePut ⟨300, []⟩ 0 "w" [("a", JVal.jnum 1), ("b", JVal.jnum 2)] "res")
      100 "w" [("b", JVal.jnum 2), ("a", JVal.jnum 1)]).1 = some "res" :=
  cache_key_order_independent ⟨300, []⟩ "w"
    [("a", JVal.jnum 1), ("b", JVal.jnum 2)]
    [("b", JVal.jnum 2), ("a", JVal.jnum 1)] "res" 0 100
    (by decide)
    (List.Perm.swap ("b", JVal.jnum 2) ("a", JVal.jnum 1) [])
    (by decide)
    (by show ¬ (100 : ℚ) > 0 + 300; rw [zero_add]; decide)

/-- C8: with a positive TTL, an entry stored with expiry instant `e` is
evicted by the first `get` whose monotonic time is past `e` (the result is
`None` and `len` drops by one), while a `get` at or before `e` returns the
stored string and leaves the store untouched — expiry is lazy, driven only
by `get`. -/
theorem cache_ttl_lazy_expiry (c : ToolResultCache) (name : String)
    (args : List (String × JVal)) (r : String) (e : ℚ) (httl : 0 < c.ttl)
    (hlook : storeLookup c.store (makeKey name args) = some (r, e)) :
    (∀ now : ℚ, now > e →
      (cacheGet c now name args).1 = none ∧
      cacheLen (cacheGet c now name args).2 + 1 = cacheLen c) ∧
    (∀ now : ℚ, ¬ now > e → cacheGet c now name args = (some r, c)) := by
  have hnle : ¬ c.ttl ≤ 0 := not_le.mpr httl
  refine ⟨fun now hnow => ?_, fun now hnow => ?_⟩
  · have hget : cacheGet c now name args =
        (none, ⟨c.ttl, storeErase c.store (makeKey name args)⟩) := by
      unfold cacheGet
      rw [if_neg hnle]
      simp only [hlook]
      rw [if_pos hnow]
    rw [hget]
    exact ⟨rfl, storeErase_length c.store (makeKey name args) (r, e) hlook⟩
  · have hget : cacheGet c now name args = (some r, c) := by
      unfold cacheGet
      rw [if_neg hnle]
      simp only [hlook]
      rw [if_neg hnow]
    exact hget

/-- C8 witness: an entry with expiry 300 misses and is evicted at time 301,
and hits without eviction at time 299. -/
theorem cache_ttl_lazy_expiry_witness :
    ((cacheGet ⟨300, [(makeKey "w" [], ("res", 300))]⟩ 301 "w" []).1 = none ∧
      cacheLen (cacheGet ⟨300, [(makeKey "w" [], ("res", 300))]⟩ 301 "w" []).2 + 1 =
        cacheLen ⟨300, [(makeKey "w" [], ("res", 300))]⟩) ∧
    cacheGet ⟨300, [(makeKey "w" [], ("res", 300))]⟩ 299 "w" [] =
      (some "res", ⟨300, [(makeKey "w" [], ("res", 300))]⟩) := by
  have h := cache_ttl_lazy_expiry ⟨300, [(makeKey "w" [], ("res", 300))]⟩ "w" [] "res" 300
    (by decide) (by simp [storeLookup])
  exact ⟨h.1 301 (by decide), h.2 299 (by decide)⟩

/-! ## Agentic-loop lemmas -/

theorem runAux_chatHistory (provider : ProviderE) (d : DispatcherE)
    (tools : List ToolDefE) :
    ∀ (fuel : Nat) (st : LoopMem) (calls disp : Nat),
      (runAux provider d tools fuel st calls disp).2.1.chatHistory = st.chatHistory := by
  intro fuel
  induction fuel with
  | zero => intro st calls disp; rfl
  | succ n ih =>
    intro st calls disp
    simp only [runAux]
    by_cases h1 : (provider st.messages tools).finishReason = "stop"
    · rw [if_pos h1]
    · rw [if_neg h1]
      by_cases h2 : (provider st.messages tools).finishReason = "tool_calls" ∧
          (provider st.messages tools).toolCalls.isEmpty = false
      · rw [if_pos h2]; exact ih _ _ _
      · rw [if_neg h2]

theorem runAux_all_toolCalls (provider : ProviderE) (d : DispatcherE)
    (tools : List ToolDefE)
    (hall : ∀ msgs, (provider msgs tools).finishReason = "tool_calls" ∧
      (provider msgs tools).toolCalls.isEmpty = false) :
    ∀ (fuel : Nat) (st : LoopMem) (calls disp : Nat),
      (runAux provider d tools fuel st calls disp).1 = .limitErr ∧
      (runAux provider d tools fuel st calls disp).2.2.1 = calls + fuel := by
  intro fuel
  induction fuel with
  | zero => intro st calls disp; exact ⟨rfl, rfl⟩
  | succ n ih =>
    intro st calls disp
    have hne : ¬ (provider st.messages tools).finishReason = "stop" := by
      rw [(hall st.messages).1]; decide
    simp only [runAux]
    rw [if_neg hne, if_pos (hall st.messages)]
    refine ⟨(ih _ _ _).1, ?_⟩
    rw [(ih _ _ _).2]
    omega

/-! ## Claims C3, C4, C5, C9 -/

/-- C3: when the provider's first completion for the turn has finish
reason `"stop"`, the loop makes exactly one provider call, dispatches no
tool call, and returns that completion's content (the empty string when
the content is null). -/
theorem agenticLoop_stop_first_call (provider : ProviderE) (d : DispatcherE)
    (maxIterations : Nat) (systemPrompt : Option String) (userText : String)
    (chatHistory : List MsgE) (tools : List ToolDefE)
    (hpos : 0 < maxIterations)
    (hstop : (provider (initialMessages systemPrompt chatHistory userText)
      tools).finishReason = "stop") :
    AgenticLoop.run provider d maxIterations systemPrompt userText chatHistory tools =
      (.success ((provider (initialMessages systemPrompt chatHistory userText)
          tools).content.getD ""),
        ⟨chatHistory, initialMessages systemPrompt chatHistory userText⟩, 1, 0) := by
  obtain ⟨n, rfl⟩ : ∃ n, maxIterations = n + 1 := ⟨maxIterations - 1, by omega⟩
  simp only [AgenticLoop.run, runAux, Nat.zero_add]
  rw [if_pos hstop]

/-- C3 witness: a provider that immediately stops with content `"hello"`. -/
theorem agenticLoop_stop_first_call_witness :
    AgenticLoop.run
      (fun _ _ => ⟨"stop", some "hello", [], ⟨"assistant", some "hello", none⟩⟩)
      (fun _ _ => .ok "x") 5 (some "sys") "hi" [] [] =
      (.success "hello", ⟨[], initialMessages (some "sys") [] "hi"⟩, 1, 0) :=
  agenticLoop_stop_first_call
    (fun _ _ => ⟨"stop", some "hello", [], ⟨"assistant", some "hello", none⟩⟩)
    (fun _ _ => .ok "x") 5 (some "sys") "hi" [] [] (by decide) rfl

/-- C4: a provider that answers every call with `"tool_calls"` and a
non-empty tool-call list drives the loop to the iteration-limit
`RuntimeError` after exactly `max_iterations` provider calls. -/
theorem agenticLoop_iteration_cap (provider : ProviderE) (d : DispatcherE)
    (maxIterations : Nat) (systemPrompt : Option String) (userText : String)
    (chatHistory : List MsgE) (tools : List ToolDefE)
    (hall : ∀ msgs, (provider msgs tools).finishReason = "tool_calls" ∧
      (provider msgs tools).toolCalls.isEmpty = false) :
    (AgenticLoop.run provider d maxIterations systemPrompt userText
      chatHistory tools).1 = .limitErr ∧
    (AgenticLoop.run provider d maxIterations systemPrompt userText
      chatHistory tools).2.2.1 = maxIterations := by
  have h := runAux_all_toolCalls provider d tools hall maxIterations
    ⟨chatHistory, initialMessages systemPrompt chatHistory userText⟩ 0 0
  exact ⟨h.1, by have := h.2; unfold AgenticLoop.run; omega⟩

/-- C4 witness: with `max_iterations = 3` and an always-`tool_calls`
provider, the loop raises after exactly 3 provider calls. -/
theorem agenticLoop_iteration_cap_witness :
    (AgenticLoop.run
      (fun _ _ => ⟨"tool_calls", none, [⟨"id", "t", []⟩], ⟨"assistant", none, none⟩⟩)
      (fun _ _ => .ok "x") 3 none "hi" [] []).1 = .limitErr ∧
    (AgenticLoop.run
      (fun _ _ => ⟨"tool_calls", none, [⟨"id", "t", []⟩], ⟨"assistant", none, none⟩⟩)
      (fun _ _ => .ok "x") 3 none "hi" [] []).2.2.1 = 3 :=
  agenticLoop_iteration_cap
    (fun _ _ => ⟨"tool_calls", none, [⟨"id", "t", []⟩], ⟨"assistant", none, none⟩⟩)
    (fun _ _ => .ok "x") 3 none "hi" [] [] (fun _ => ⟨rfl, rfl⟩)

/-- C5: tool dispatch produces exactly one tool-result message per
requested call, in call order, each with role `"tool"`, the call's id
echoed verbatim, and content the dispatcher's result string — or the JSON
error payload when the dispatcher raises, so a failing tool aborts neither
the turn nor its sibling calls. -/
theorem dispatchToolCalls_results (d : DispatcherE) (tcs : List ToolCallE) :
    (dispatchToolCalls d tcs).length = tcs.length ∧
    ∀ (i : Nat) (tc : ToolCallE), tcs[i]? = some tc →
      (dispatchToolCalls d tcs)[i]? = some
        ⟨"tool",
          some (match d tc.name tc.arguments with
                | .ok s => s
                | .error m => jsonErrorString m),
          some tc.id⟩ := by
  refine ⟨List.length_map _ _, fun i tc h => ?_⟩
  rw [dispatchToolCalls, List.getElem?_map, h]
  cases hd : d tc.name tc.arguments <;> simp [runOne, hd]

/-- C5 witness: two sibling calls, the second one failing — both produce
tool messages, the failing one with the JSON error payload. -/
theorem dispatchToolCalls_results_witness :
    (dispatchToolCalls
      (fun name _ => if name = "good" then .ok "val" else .error "boom")
      [⟨"id1", "good", []⟩, ⟨"id2", "bad", []⟩])[0]? =
        some ⟨"tool", some "val", some "id1"⟩ ∧
    (dispatchToolCalls
      (fun name _ => if name = "good" then .ok "val" else .error "boom")
      [⟨"id1", "good", []⟩, ⟨"id2", "bad", []⟩])[1]? =
        some ⟨"tool", some (jsonErrorString "boom"), some "id2"⟩ :=
  ⟨(dispatchToolCalls_results
      (fun name _ => if name = "good" then .ok "val" else .error "boom")
      [⟨"id1", "good", []⟩, ⟨"id2", "bad", []⟩]).2 0 ⟨"id1", "good", []⟩ rfl,
    (dispatchToolCalls_results
      (fun name _ => if name = "good" then .ok "val" else .error "boom")
      [⟨"id1", "good", []⟩, ⟨"id2", "bad", []⟩]).2 1 ⟨"id2", "bad", []⟩ rfl⟩

/-- C9: the caller-supplied `chat_history` list is never mutated by the
loop — whether the turn succeeds or hits the iteration limit, the caller's
list holds the same messages in the same order afterwards; the loop only
ever appends to its own `messages` list. -/
theorem agenticLoop_no_history_mutation (provider : ProviderE) (d : DispatcherE)
    (maxIterations : Nat) (systemPrompt : Option String) (userText : String)
    (chatHistory : List MsgE) (tools : List ToolDefE) :
    (AgenticLoop.run provider d maxIterations systemPrompt userText
      chatHistory tools).2.1.chatHistory = chatHistory :=
  runAux_chatHistory provider d tools maxIterations
    ⟨chatHistory, initialMessages systemPrompt chatHistory userText⟩ 0 0

/-! ## Entity lemmas -/

theorem histLookup_update_self (hs : List (String × List EMsg)) (c : String)
    (l : List EMsg) : histLookup (histUpdate hs c l) c = some l := by
  induction hs with
  | nil => simp [histUpdate, histLookup]
  | cons p rest ih =>
    obtain ⟨c', l'⟩ := p
    by_cases h : c' = c
    · simp [histUpdate, histLookup, h]
    · simp [histUpdate, histLookup, h, ih]

theorem histLookup_update_other (hs : List (String × List EMsg)) (c : String)
    (l : List EMsg) (d : String) (h : ¬ c = d) :
    histLookup (histUpdate hs c l) d = histLookup hs d := by
  induction hs with
  | nil =>
    show histLookup [(c, l)] d = histLookup [] d
    simp only [histLookup]
    rw [if_neg h]
  | cons p rest ih =>
    obtain ⟨c', l'⟩ := p
    by_cases hc : c' = c
    · have e1 : histUpdate ((c', l') :: rest) c l = (c, l) :: rest := by
        rw [histUpdate, if_pos hc]
      rw [e1]
      simp only [histLookup]
      rw [if_neg h, if_neg (fun he : c' = d => h (hc ▸ he))]
    · have e1 : histUpdate ((c', l') :: rest) c l = (c', l') :: histUpdate rest c l := by
        rw [histUpdate, if_neg hc]
      rw [e1]
      simp only [histLookup]
      by_cases hd' : c' = d
      · rw [if_pos hd', if_pos hd']
      · rw [if_neg hd', if_neg hd']; exact ih

theorem mem_histUpdate (hs : List (String × List EMsg)) (c : String)
    (l : List EMsg) : ∀ p ∈ histUpdate hs c l, p ∈ hs ∨ p = (c, l) := by
  induction hs with
  | nil => simp [histUpdate]
  | cons q rest ih =>
    obtain ⟨c', l'⟩ := q
    intro p hp
    by_cases h : c' = c
    · simp only [histUpdate, h, if_pos, ite_true, List.mem_cons] at hp
      rcases hp with hp | hp
      · exact Or.inr hp
      · exact Or.inl (List.mem_cons_of_mem _ hp)
    · simp only [histUpdate, h, ite_false, List.mem_cons] at hp
      rcases hp with hp | hp
      · exact Or.inl (hp ▸ List.mem_cons_self _ _)
      · rcases ih p hp with h' | h'
        · exact Or.inl (List.mem_cons_of_mem _ h')
        · exact Or.inr h'

theorem histLookup_mem (hs : List (String × List EMsg)) (c : String)
    (l : List EMsg) (h : histLookup hs c = some l) : (c, l) ∈ hs := by
  induction hs with
  | nil => simp [histLookup] at h
  | cons p rest ih =>
    obtain ⟨c', l'⟩ := p
    by_cases hc : c' = c
    · subst hc
      simp only [histLookup, if_pos, ite_true, Option.some.injEq] at h
      exact h ▸ List.mem_cons_self _ _
    · simp only [histLookup, hc, ite_false] at h
      exact List.mem_cons_of_mem _ (ih h)

theorem truncateHistory_even (cfg : EntityCfg) (l : List EMsg)
    (h : l.length % 2 = 0) : (truncateHistory cfg l).length % 2 = 0 := by
  unfold truncateHistory
  by_cases h0 : cfg.maxHistoryTurns = 0 ∨ l.length = 0
  · rw [if_pos h0]; exact h
  · rw [if_neg h0]
    by_cases hgt : l.length > cfg.maxHistoryTurns * 2
    · rw [if_pos hgt]; simp only [List.length_drop]; omega
    · rw [if_neg hgt]; exact h

theorem loadHistory_even (hs : List (String × List EMsg)) (convId : Option String)
    (h : evenHists hs) : (loadHistory hs convId).length % 2 = 0 := by
  cases convId with
  | none => rfl
  | some c =>
    by_cases hc : c = ""
    · simp [loadHistory, hc]
    · simp only [loadHistory, hc, ite_false]
      cases hl : histLookup hs c with
      | none => rfl
      | some l => exact h (c, l) (histLookup_mem hs c l hl)

/-! ## Claims C1, C2, C10 -/

/-- C1 counterexample: with `max_history_turns = 1` and a stored history of
4 messages, a successful turn stores 4 messages (the truncated window plus
the new pair), not the 6 the claim's untruncated append would give — the
truncation window is applied to the stored list, destructively. -/
theorem asyncProcess_untruncated_append_cx :
    ¬ (histLookup (asyncProcess ⟨1, false⟩
        [("s", [⟨"user", "q0"⟩, ⟨"assistant", "a0"⟩, ⟨"user", "q1"⟩, ⟨"assistant", "a1"⟩])]
        ⟨"q2", some "s", "en"⟩ "fresh" (.ok "a2")).histories "s" =
      some ([⟨"user", "q0"⟩, ⟨"assistant", "a0"⟩, ⟨"user", "q1"⟩, ⟨"assistant", "a1"⟩] ++
        [⟨"user", "q2"⟩, ⟨"assistant", "a2"⟩])) := by
  decide

/-- C1 (amended): on a successful turn the stored history for the session
becomes the truncated history window that was passed to the agentic loop
with the new user and assistant messages appended — so the
`max_history_turns` window also bounds the stored list (a destructive
write once the history exceeds the window) — and other sessions' stored
histories are untouched. -/
theorem asyncProcess_success_appends_to_window (cfg : EntityCfg)
    (hs : List (String × List EMsg)) (input : ConversationInput)
    (freshId : String) (resp : String) (c : String)
    (hres : resolveConvId cfg input freshId = some c) :
    (asyncProcess cfg hs input freshId (.ok resp)).loopHistory =
      truncateHistory cfg (loadHistory hs (some c)) ∧
    histLookup (asyncProcess cfg hs input freshId (.ok resp)).histories c =
      some ((asyncProcess cfg hs input freshId (.ok resp)).loopHistory ++
        [⟨"user", input.text⟩, ⟨"assistant", resp⟩]) ∧
    ∀ d, d ≠ c →
      histLookup (asyncProcess cfg hs input freshId (.ok resp)).histories d =
        histLookup hs d := by
  have hloop : (asyncProcess cfg hs input freshId (.ok resp)).loopHistory =
      truncateHistory cfg (loadHistory hs (some c)) := by
    simp only [asyncProcess, hres]
  have hhist : (asyncProcess cfg hs input freshId (.ok resp)).histories =
      histUpdate hs c (truncateHistory cfg (loadHistory hs (some c)) ++
        [⟨"user", input.text⟩, ⟨"assistant", resp⟩]) := by
    simp only [asyncProcess, hres]
  refine ⟨hloop, ?_, ?_⟩
  · rw [hhist, hloop, histLookup_update_self]
  · intro d hd
    rw [hhist, histLookup_update_other _ _ _ _ (fun he => hd he.symm)]

/-- C1 witness: with `max_history_turns = 1`, after a success the stored
history is the 2-message window plus the new turn. -/
theorem asyncProcess_success_appends_to_window_witness :
    histLookup (asyncProcess ⟨1, false⟩
      [("s", [⟨"user", "q0"⟩, ⟨"assistant", "a0"⟩, ⟨"user", "q1"⟩, ⟨"assistant", "a1"⟩])]
      ⟨"q2", some "s", "en"⟩ "fresh" (.ok "a2")).histories "s" =
      some ((asyncProcess ⟨1, false⟩
        [("s", [⟨"user", "q0"⟩, ⟨"assistant", "a0"⟩, ⟨"user", "q1"⟩, ⟨"assistant", "a1"⟩])]
        ⟨"q2", some "s", "en"⟩ "fresh" (.ok "a2")).loopHistory ++
        [⟨"user", "q2"⟩, ⟨"assistant", "a2"⟩]) :=
  (asyncProcess_success_appends_to_window ⟨1, false⟩
    [("s", [⟨"user", "q0"⟩, ⟨"assistant", "a0"⟩, ⟨"user", "q1"⟩, ⟨"assistant", "a1"⟩])]
    ⟨"q2", some "s", "en"⟩ "fresh" "a2" "s" rfl).2.1

/-- C2: a failing turn returns the fixed apology for its error category
together with the resolved conversation id and leaves the stored session
map exactly as it was; and every turn (success or failure) preserves the
invariant that each stored history has even length. -/
theorem asyncProcess_failure_immutable (cfg : EntityCfg)
    (hs : List (String × List EMsg)) (input : ConversationInput)
    (freshId : String) (e : LoopErr) :
    (asyncProcess cfg hs input freshId (.error e)).result.responseText = apology e ∧
    (asyncProcess cfg hs input freshId (.error e)).result.conversationId =
      resolveConvId cfg input freshId ∧
    (asyncProcess cfg hs input freshId (.error e)).histories = hs ∧
    (evenHists hs → ∀ outcome,
      evenHists (asyncProcess cfg hs input freshId outcome).histories) := by
  refine ⟨rfl, rfl, rfl, fun heven outcome => ?_⟩
  cases outcome with
  | error e' => exact heven
  | ok resp =>
    cases hconv : resolveConvId cfg input freshId with
    | none => simpa only [asyncProcess, hconv] using heven
    | some c =>
      simp only [asyncProcess, hconv]
      intro p hp
      rcases mem_histUpdate hs c _ p hp with h | h
      · exact heven p h
      · rw [h]
        have ht : (truncateHistory cfg (loadHistory hs (some c))).length % 2 = 0 :=
          truncateHistory_even cfg _ (loadHistory_even hs (some c) heven)
        simp only [List.length_append, List.length_cons, List.length_nil]
        omega

/-- C2 witness: a rate-limit failure leaves a one-turn history intact, and
a success keeps all histories even-length. -/
theorem asyncProcess_failure_immutable_witness :
    (asyncProcess ⟨20, false⟩ [("s", [⟨"user", "q"⟩, ⟨"assistant", "a"⟩])]
      ⟨"q2", some "s", "en"⟩ "fresh" (.error .rateLimit)).histories =
      [("s", [⟨"user", "q"⟩, ⟨"assistant", "a"⟩])] ∧
    evenHists (asyncProcess ⟨20, false⟩ [("s", [⟨"user", "q"⟩, ⟨"assistant", "a"⟩])]
      ⟨"q2", some "s", "en"⟩ "fresh" (.ok "a2")).histories :=
  ⟨(asyncProcess_failure_immutable ⟨20, false⟩
      [("s", [⟨"user", "q"⟩, ⟨"assistant", "a"⟩])]
      ⟨"q2", some "s", "en"⟩ "fresh" .rateLimit).2.2.1,
    (asyncProcess_failure_immutable ⟨20, false⟩
      [("s", [⟨"user", "q"⟩, ⟨"assistant", "a"⟩])]
      ⟨"q2", some "s", "en"⟩ "fresh" .rateLimit).2.2.2 (by decide) (.ok "a2")⟩

/-- C10: with no conversation id supplied and auto-creation disabled, the
turn runs on an empty history, the session map is untouched whatever the
outcome, and the result carries no conversation id. -/
theorem asyncProcess_stateless_mode (cfg : EntityCfg)
    (hs : List (String × List EMsg)) (input : ConversationInput)
    (freshId : String) (outcome : Except LoopErr String)
    (hnone : input.conversationId = none) (hauto : cfg.autoCreate = false) :
    (asyncProcess cfg hs input freshId outcome).result.conversationId = none ∧
    (asyncProcess cfg hs input freshId outcome).histories = hs ∧
    (asyncProcess cfg hs input freshId outcome).loopHistory = [] := by
  have hconv : resolveConvId cfg input freshId = none := by
    simp [resolveConvId, hnone, hauto]
  have htr : truncateHistory cfg [] = [] := by
    unfold truncateHistory; simp
  cases outcome <;> simp [asyncProcess, hconv, loadHistory, htr]

/-- C10 witness: a stateless success leaves a pre-existing session map
unchanged and returns no conversation id. -/
theorem asyncProcess_stateless_mode_witness :
    (asyncProcess ⟨20, false⟩ [("s", [⟨"user", "q"⟩, ⟨"assistant", "a"⟩])]
      ⟨"hi", none, "en"⟩ "fresh" (.ok "r")).result.conversationId = none ∧
    (asyncProcess ⟨20, false⟩ [("s", [⟨"user", "q"⟩, ⟨"assistant", "a"⟩])]
      ⟨"hi", none, "en"⟩ "fresh" (.ok "r")).histories =
      [("s", [⟨"user", "q"⟩, ⟨"assistant", "a"⟩])] ∧
    (asyncProcess ⟨20, false⟩ [("s", [⟨"user", "q"⟩, ⟨"assistant", "a"⟩])]
      ⟨"hi", none, "en"⟩ "fresh" (.ok "r")).loopHistory = [] :=
  asyncProcess_stateless_mode ⟨20, false⟩
    [("s", [⟨"user", "q"⟩, ⟨"assistant", "a"⟩])]
    ⟨"hi", none, "en"⟩ "fresh" (.ok "r") rfl rfl

/-! ## Registry dispatcher lemma and claim C6 -/

theorem attemptLoop_spec (runs : Nat → HOut) (retryKinds : List String) :
    ∀ (rem idx : Nat), 1 ≤ rem →
      idx + 1 ≤ (attemptLoop runs retryKinds idx rem).2 ∧
      (attemptLoop runs retryKinds idx rem).2 ≤ idx + rem ∧
      (∀ i, idx ≤ i → i + 1 < (attemptLoop runs retryKinds idx rem).2 →
        ∃ e, runs i = .exc e ∧ retryable retryKinds e = true) ∧
      (∀ s, (attemptLoop runs retryKinds idx rem).1 = .ok s →
        runs ((attemptLoop runs retryKinds idx rem).2 - 1) = .ok s) ∧
      (∀ e, (attemptLoop runs retryKinds idx rem).1 = .error e →
        runs ((attemptLoop runs retryKinds idx rem).2 - 1) = .exc e ∧
        (retryable retryKinds e = false ∨
          (attemptLoop runs retryKinds idx rem).2 = idx + rem)) := by
  intro rem
  induction rem with
  | zero => intro idx h; exact absurd h (by omega)
  | succ n ih =>
    intro idx _
    cases hr : runs idx with
    | ok s =>
      have hred : attemptLoop runs retryKinds idx (n + 1) = (.ok s, idx + 1) := by
        simp only [attemptLoop, hr]
      rw [hred]
      refine ⟨by omega, by omega, ?_, ?_, ?_⟩
      · intro i hle hlt; exact absurd hlt (by omega)
      · intro s' hs'
        have hss : s = s' := by injection hs'
        rw [Nat.add_sub_cancel, hr, hss]
      · intro e he'; exact Except.noConfusion he'
    | exc e =>
      by_cases hretry : retryable retryKinds e = true ∧ 1 ≤ n
      · have hred : attemptLoop runs retryKinds idx (n + 1) =
            attemptLoop runs retryKinds (idx + 1) n := by
          simp only [attemptLoop, hr]
          rw [if_pos hretry]
        rw [hred]
        obtain ⟨h1, h2, h3, h4, h5⟩ := ih (idx + 1) hretry.2
        refine ⟨by omega, by omega, ?_, h4, ?_⟩
        · intro i hle hlt
          rcases Nat.eq_or_lt_of_le hle with heq | hlt'
          · exact heq ▸ ⟨e, hr, hretry.1⟩
          · exact h3 i (by omega) hlt
        · intro e' he'
          obtain ⟨ha, hb⟩ := h5 e' he'
          exact ⟨ha, hb.imp id fun h => by omega⟩
      · have hred : attemptLoop runs retryKinds idx (n + 1) = (.error e, idx + 1) := by
          simp only [attemptLoop, hr]
          rw [if_neg hretry]
        rw [hred]
        refine ⟨by omega, by omega, ?_, ?_, ?_⟩
        · intro i hle hlt; exact absurd hlt (by omega)
        · intro s hs; exact Except.noConfusion hs
        · intro e' he'
          have hee : e = e' := by injection he'
          subst hee
          refine ⟨by rw [Nat.add_sub_cancel]; exact hr, ?_⟩
          rcases Bool.eq_false_or_eq_true (retryable retryKinds e) with hb | hb
          · have hn : ¬ 1 ≤ n := fun hle => hretry ⟨hb, hle⟩
            exact Or.inr (by omega)
          · exact Or.inl hb

/-- C6: the dispatcher built by `build_dispatcher` answers an unknown tool
name with the JSON error payload instead of raising; for a registered tool
it makes at most `max_retries + 1` attempts, every attempt before the last
one made failed with a retryable exception, a returned success is the last
attempt's result, and a propagated exception is the last attempt's
exception, which was either non-retryable or out of attempts. -/
theorem buildDispatcher_retry_policy (snapshot : List (String × (Nat → HOut)))
    (maxRetries : Nat) (retryKinds : List String) (name : String) :
    (snapshotLookup snapshot name = none →
      buildDispatch snapshot maxRetries retryKinds name =
        (.ok (unknownToolPayload name), 0)) ∧
    ∀ runs, snapshotLookup snapshot name = some runs →
      1 ≤ (buildDispatch snapshot maxRetries retryKinds name).2 ∧
      (buildDispatch snapshot maxRetries retryKinds name).2 ≤ maxRetries + 1 ∧
      (∀ i, i + 1 < (buildDispatch snapshot maxRetries retryKinds name).2 →
        ∃ e, runs i = .exc e ∧ retryable retryKinds e = true) ∧
      (∀ s, (buildDispatch snapshot maxRetries retryKinds name).1 = .ok s →
        runs ((buildDispatch snapshot maxRetries retryKinds name).2 - 1) = .ok s) ∧
      (∀ e, (buildDispatch snapshot maxRetries retryKinds name).1 = .error e →
        runs ((buildDispatch snapshot maxRetries retryKinds name).2 - 1) = .exc e ∧
        (retryable retryKinds e = false ∨
          (buildDispatch snapshot maxRetries retryKinds name).2 = maxRetries + 1)) := by
  constructor
  · intro h; unfold buildDispatch; rw [h]
  · intro runs h
    have hb : buildDispatch snapshot maxRetries retryKinds name =
        attemptLoop runs retryKinds 0 (maxRetries + 1) := by
      unfold buildDispatch; rw [h]
    rw [hb]
    obtain ⟨h1, h2, h3, h4, h5⟩ := attemptLoop_spec runs retryKinds (maxRetries + 1) 0 (by omega)
    simp only [Nat.zero_add] at h2 h5
    exact ⟨by omega, h2, fun i hi => h3 i (by omega) hi, h4, h5⟩

/-- C6 witness: an unknown name yields the JSON payload; a handler whose
first attempt times out (retryable) and whose second succeeds stays within
the `max_retries + 1 = 2` attempt budget. -/
theorem buildDispatcher_retry_policy_witness :
    buildDispatch
      [("t", fun i => if i = 0 then HOut.exc ⟨"TimeoutError", "slow"⟩ else HOut.ok "v")]
      1 ["TimeoutError"] "missing" = (.ok (unknownToolPayload "missing"), 0) ∧
    (buildDispatch
      [("t", fun i => if i = 0 then HOut.exc ⟨"TimeoutError", "slow"⟩ else HOut.ok "v")]
      1 ["TimeoutError"] "t").2 ≤ 1 + 1 :=
  ⟨(buildDispatcher_retry_policy
      [("t", fun i => if i = 0 then HOut.exc ⟨"TimeoutError", "slow"⟩ else HOut.ok "v")]
      1 ["TimeoutError"] "missing").1 rfl,
    ((buildDispatcher_retry_policy
      [("t", fun i => if i = 0 then HOut.exc ⟨"TimeoutError", "slow"⟩ else HOut.ok "v")]
      1 ["TimeoutError"] "t").2 _ rfl).2.1⟩

end Chatterbox
